import Mathlib

/-!
Shallow embedding of `src/rules/ignore-for-authors.ts` from
`@mridang/commitlint-plugin-conditionals`, in both of its variants:
the first keys the bypass on raw-message substring patterns
(`ignoreAuthorPatterns`), the second on `Signed-off-by:` trailer
patterns (`signOffPatternsToIgnore`).

Modelling conventions:
* JavaScript dynamic values that the engine type-checks are modelled by
  small inductives (`JSVal`, `JsArrayField`, `ExternalRuleToEnforce`):
  only the distinctions the code observes (string / not a string, array /
  truthy non-array / falsy) are represented.
* The dynamic `import(packageName)` is an environment
  `Env V : String → ImportResult V`; a loaded module's catalog shapes
  mirror the three-tier extraction in the source.
* A delegated rule is a total function returning an `InvokeResult`:
  a proper `[boolean, string]` tuple, a thrown error / rejected promise,
  or a non-iterable value (whose destructuring throws a `TypeError`).
* The async engine's returned promise is `Except JsError (Bool × String)`:
  `Except.error` is a rejected promise, i.e. an exception escaping to the
  caller.
* Alongside its outcome the embedding returns the list of observable
  side effects (`Event`): each module load awaited and each delegated
  rule invocation with the exact arguments passed. The source performs
  these effects exactly where the embedding records them.
* Only `'\n'` is modelled as a line terminator in the trailer regex
  (commit messages are `'\n'`-separated); JavaScript `\s` is modelled by
  the ASCII whitespace characters.
-/

/-- A JavaScript value as observed by a `typeof x === 'string'` check:
either a string or anything else (null, undefined, number, object...). -/
inductive JSVal : Type
| str (s : String)
| nonString
deriving DecidableEq, Repr

/-- The commit object: the engine itself reads only `parsed.raw` (which may
fail the string check at runtime); everything else is passed through
opaquely to delegated rules. -/
structure Commit : Type where
raw : JSVal
deriving DecidableEq, Repr

/-- `RuleConfigCondition` from `@commitlint/types`: `'always' | 'never'`. -/
inductive RuleConfigCondition : Type
| always
| never
deriving DecidableEq, Repr

/-- `RuleOutcome` from `@commitlint/types`: the `[boolean, string]` tuple. -/
abbrev RuleOutcome : Type := Bool × String

/-- An exception escaping the async engine (a rejected promise):
either a value thrown/rejected by a delegated rule, or the `TypeError`
raised when destructuring a non-iterable rule result. -/
inductive JsError : Type
| userThrown (msg : String)
| typeError
deriving DecidableEq, Repr

/-- A JavaScript field checked by `x && Array.isArray(x)`:
falsy, a truthy non-array, or an array of elements. -/
inductive JsArrayField (α : Type) : Type
| falsy
| notArray
| arr (xs : List α)
deriving DecidableEq, Repr

/-- What `await Promise.resolve(ruleFunction(...))` produces:
a `[boolean, string]` tuple, a thrown error / rejected promise carrying a
message, or a resolved non-iterable value (destructuring it throws). -/
inductive InvokeResult : Type
| tuple (passed : Bool) (message : String)
| reject (msg : String)
| nonIterable
deriving DecidableEq, Repr

/-- A delegated rule capability: `(commit, condition, options) → outcome`.
`V` is the opaque option-value type passed through by the engine. -/
def RuleFn (V : Type) : Type := Commit → RuleConfigCondition → V → InvokeResult

/-- One entry of a module's rules catalogue, as observed by
`rulesCatalog[ruleName]` followed by `typeof ruleFunction !== 'function'`:
absent, present but not invocable, or an invocable rule. -/
inductive CatalogEntry (V : Type) : Type
| missing
| notFunction
| fn (f : RuleFn V)

/-- A rules catalogue: a JavaScript object mapping rule names to entries. -/
def Catalog (V : Type) : Type := String → CatalogEntry V

/-- The `default` export of a loaded plugin module, as the engine observes
it: falsy; truthy but not an object; an object whose `rules` field is a
non-null object (the catalogue); or an object whose `rules` field is not a
non-null object, in which case the default export itself is the catalogue. -/
inductive DefaultExport (V : Type) : Type
| falsy
| truthyNonObject
| objWithRules (rules : Catalog V)
| objPlain (self : Catalog V)

/-- The named `rules` export of a loaded module: a non-null object or not. -/
inductive RulesExport (V : Type) : Type
| notObject
| obj (rules : Catalog V)

/-- `LoadedCommitlintPluginModule` from the source: the shape of a
dynamically imported plugin module. -/
structure LoadedCommitlintPluginModule (V : Type) : Type where
default : DefaultExport V
rules : RulesExport V

/-- Result of `await import(packageName)`: the load throws (module not
found, syntax error, ...) with an error message, or yields a module. -/
inductive ImportResult (V : Type) : Type
| throws (errMsg : String)
| ok (m : LoadedCommitlintPluginModule V)

/-- The module-resolution environment: what `import` returns per name. -/
def Env (V : Type) : Type := String → ImportResult V

/-- One entry of `rulesToEnforce` as a runtime value: falsy (rejected by
`!ruleConfig`), or an object with `packageName`, `ruleName` and an opaque
`value`, each of the two names possibly failing the string check. -/
inductive ExternalRuleToEnforce (V : Type) : Type
| falsy
| obj (packageName ruleName : JSVal) (value : V)

/-- An observable side effect of the engine: a module load
(`await import(packageName)`) or a delegated-rule invocation with the
exact arguments passed. -/
inductive Event (V : Type) : Type
| load (packageName : String)
| invoke (packageName ruleName : String) (commit : Commit)
    (cond : RuleConfigCondition) (value : V)
deriving DecidableEq, Repr

/-- The three-tier catalogue extraction from the source, in priority
order: `module.default.rules` when it is a non-null object, else
`module.default` itself when it is a (non-null) object, else the named
`module.rules` export when it is a non-null object. -/
def resolveCatalog {V : Type} (m : LoadedCommitlintPluginModule V) :
    Option (Catalog V) :=
  match m.default with
  | DefaultExport.objWithRules cat => some cat
  | DefaultExport.objPlain cat => some cat
  | DefaultExport.falsy =>
    match m.rules with
    | RulesExport.obj cat => some cat
    | RulesExport.notObject => none
  | DefaultExport.truthyNonObject =>
    match m.rules with
    | RulesExport.obj cat => some cat
    | RulesExport.notObject => none

/-- `rulesCatalog[ruleName]` followed by the
`typeof ruleFunction !== 'function'` check: `some f` exactly when a
catalogue was found and its entry under `ruleName` is invocable. -/
def resolveRuleFunction {V : Type} (m : LoadedCommitlintPluginModule V)
    (ruleName : String) : Option (RuleFn V) :=
  match resolveCatalog m with
  | none => none
  | some cat =>
    match cat ruleName with
    | CatalogEntry.fn f => some f
    | CatalogEntry.missing => none
    | CatalogEntry.notFunction => none

/-- JavaScript `haystack.includes(needle)` on strings: substring test. -/
def jsIncludes (s pat : String) : Bool := decide (pat.data <:+: s.data)

/-- The `.every(pattern => typeof pattern === 'string')` guard fused with
the subsequent use of the array as strings: `some` of the string list
exactly when every entry is a string. -/
def allStrings? : List JSVal → Option (List String)
| [] => some []
| JSVal.str s :: rest => (allStrings? rest).map (fun t => s :: t)
| JSVal.nonString :: _ => none

/-- The `for (const ruleConfig of rulesToEnforce)` loop, shared by both
source variants; `pfx` is the variant's message prefix (the long plugin tag
in the first variant, empty in the second) and `viaPfx` the prefix of the
delegated-failure message (`"[@mridang/commitlint-plugin-conditionals via "`
resp. `"[via "`). Returns the loop's outcome (or escaped exception) plus
the list of loads and invocations performed, in order. The dynamic import
and catalogue extraction sit inside `try`/`catch`; the rule invocation and
the destructuring of its result do not, so those raise `Except.error`. -/
def enforceRules {V : Type} (pfx viaPfx : String) (env : Env V) (parsed : Commit) :
    List (ExternalRuleToEnforce V) → Except JsError RuleOutcome × List (Event V)
| [] =>
  (Except.ok (true, pfx ++ "All configured \"rulesToEnforce\" passed for this author."), [])
| ruleConfig :: rest =>
  match ruleConfig with
  | ExternalRuleToEnforce.falsy =>
    (Except.ok (false, pfx ++ "Invalid rule configuration in 'rulesToEnforce': 'packageName' and 'ruleName' must be strings."), [])
  | ExternalRuleToEnforce.obj pn rn v =>
    match pn, rn with
    | JSVal.str packageName, JSVal.str ruleName =>
      (match env packageName with
       | ImportResult.throws errorMessage =>
         (Except.ok (false, pfx ++ "Error loading plugin package '" ++ packageName ++ "': " ++ errorMessage), [Event.load packageName])
       | ImportResult.ok m =>
         match resolveRuleFunction m ruleName with
         | none =>
           (Except.ok (false, pfx ++ "Rule '" ++ ruleName ++ "' not found or not a function in package '" ++ packageName ++ "'."), [Event.load packageName])
         | some ruleFunction =>
           match ruleFunction parsed RuleConfigCondition.always v with
           | InvokeResult.reject msg =>
             (Except.error (JsError.userThrown msg),
              [Event.load packageName, Event.invoke packageName ruleName parsed RuleConfigCondition.always v])
           | InvokeResult.nonIterable =>
             (Except.error JsError.typeError,
              [Event.load packageName, Event.invoke packageName ruleName parsed RuleConfigCondition.always v])
           | InvokeResult.tuple isValid message =>
             if isValid then
               let next := enforceRules pfx viaPfx env parsed rest
               (next.fst, Event.load packageName :: Event.invoke packageName ruleName parsed RuleConfigCondition.always v :: next.snd)
             else
               (Except.ok (false, viaPfx ++ packageName ++ "/" ++ ruleName ++ "] " ++ message),
                [Event.load packageName, Event.invoke packageName ruleName parsed RuleConfigCondition.always v]))
    | _, _ =>
      (Except.ok (false, pfx ++ "Invalid rule configuration in 'rulesToEnforce': 'packageName' and 'ruleName' must be strings."), [])

namespace IgnoreForAuthorsV1

/-- The message prefix used by every outcome of the first variant. -/
def pfx : String := "[@mridang/commitlint-plugin-conditionals ignoreForAuthors] "

/-- The delegated-failure message prefix of the first variant. -/
def viaPfx : String := "[@mridang/commitlint-plugin-conditionals via "

/-- `IgnoreForAuthorsRuleOptions` of the first variant, as runtime values. -/
structure IgnoreForAuthorsRuleOptions (V : Type) : Type where
ignoreAuthorPatterns : JsArrayField JSVal
rulesToEnforce : JsArrayField (ExternalRuleToEnforce V)

/-- The `if (ignoreAuthorPatterns && Array.isArray(...)) { ... }` block of
the first variant: `some` when that block returns (a configuration error
or a bypass success), `none` when control falls through. -/
def bypassCheck (rawCommitMessage : String) (field : JsArrayField JSVal) :
    Option (Except JsError RuleOutcome) :=
  match field with
  | JsArrayField.arr pats =>
    (match allStrings? pats with
     | none =>
       some (Except.ok (false, pfx ++ "Configuration error: 'ignoreAuthorPatterns' must be an array of strings."))
     | some strs =>
       match strs.find? (fun pattern => jsIncludes rawCommitMessage pattern) with
       | some matchedIgnoredPattern =>
         some (Except.ok (true, pfx ++ "Commit by ignored author pattern ('" ++ matchedIgnoredPattern ++ "'). Ruleset defined in 'rulesToEnforce' bypassed."))
       | none => none)
  | JsArrayField.falsy => none
  | JsArrayField.notArray => none

/-- The first variant of `ignoreForAuthors` (substring patterns against the
raw commit message). -/
def ignoreForAuthors {V : Type} (env : Env V) (parsedCommitData : Commit)
    (whenCond : RuleConfigCondition) (value : Option (IgnoreForAuthorsRuleOptions V)) :
    Except JsError RuleOutcome × List (Event V) :=
  if whenCond = RuleConfigCondition.never then
    (Except.ok (true, ""), [])
  else
    let options := value.getD { ignoreAuthorPatterns := JsArrayField.falsy, rulesToEnforce := JsArrayField.falsy }
    match parsedCommitData.raw with
    | JSVal.nonString =>
      (Except.ok (false, pfx ++ "Raw commit message is not available or is invalid."), [])
    | JSVal.str rawCommitMessage =>
      match bypassCheck rawCommitMessage options.ignoreAuthorPatterns with
      | some outcome => (outcome, [])
      | none =>
        match options.rulesToEnforce with
        | JsArrayField.arr (rc :: rest) =>
          enforceRules pfx viaPfx env parsedCommitData (rc :: rest)
        | JsArrayField.arr [] =>
          (Except.ok (true, pfx ++ "No rules configured in \"rulesToEnforce\" for this author, or author was ignored. Rule passes."), [])
        | JsArrayField.falsy =>
          (Except.ok (true, pfx ++ "No rules configured in \"rulesToEnforce\" for this author, or author was ignored. Rule passes."), [])
        | JsArrayField.notArray =>
          (Except.ok (true, pfx ++ "No rules configured in \"rulesToEnforce\" for this author, or author was ignored. Rule passes."), [])

end IgnoreForAuthorsV1

/-- The literal of the trailer regex `/^Signed-off-by:\s*(.*)$/gim`,
lowercased for the case-insensitive comparison. -/
def sobLit : List Char := "signed-off-by:".data

/-- JavaScript `\s` (and the character class trimmed by `String.trim`),
restricted to the ASCII whitespace characters. -/
def isJsSpace (c : Char) : Bool :=
  c = ' ' || c = '\t' || c = '\n' || c = '\r' || c.toNat = 11 || c.toNat = 12

/-- JavaScript `String.prototype.trim`: whitespace stripped at both ends. -/
def jsTrim (cs : List Char) : List Char :=
  ((cs.dropWhile isJsSpace).reverse.dropWhile isJsSpace).reverse

/-- Case-insensitive match of the (lowercase) literal `lit` at the head of
`cs`: `some` of the remainder on success. -/
def matchLiteralCI : List Char → List Char → Option (List Char)
| [], cs => some cs
| _ :: _, [] => none
| l :: ls, c :: cs => if c.toLower = l then matchLiteralCI ls cs else none

/-- The `while ((match = signOffRegex.exec(raw)) !== null)` loop over
`/^Signed-off-by:\s*(.*)$/gim`, on the character list, collecting the raw
captured groups in order. `atLineStart` tracks whether the current
position can satisfy the multiline `^` anchor. A match consumes the
literal, then the maximal run of whitespace (the greedy `\s*`, which may
cross line breaks), then captures up to the next `'\n'` or the end of
input; scanning resumes after the capture. The fuel argument strictly
exceeds the number of characters left, so it never reaches zero. -/
def scanSignOffs : Nat → List Char → Bool → List (List Char)
| 0, _, _ => []
| fuel + 1, cs, atLineStart =>
  match (if atLineStart then matchLiteralCI sobLit cs else none) with
  | some rest =>
    let rest2 := rest.dropWhile isJsSpace
    let cap := rest2.takeWhile (fun c => !(c = '\n'))
    let after := rest2.dropWhile (fun c => !(c = '\n'))
    cap :: (match after with
            | [] => []
            | _ :: tl => scanSignOffs fuel tl true)
  | none =>
    match cs with
    | [] => []
    | c :: tl => scanSignOffs fuel tl (c = '\n')

/-- The `extractedSignOffs` array of the second variant: every captured
group of the trailer regex over the raw message, trimmed. -/
def extractSignOffs (raw : String) : List String :=
  (scanSignOffs (raw.length + 1) raw.data true).map (fun cs => String.mk (jsTrim cs))

/-- Split a character list at every `'\n'`, like `raw.split('\n')`. -/
def splitLines : List Char → List (List Char)
| [] => [[]]
| c :: tl =>
  if c = '\n' then [] :: splitLines tl
  else
    match splitLines tl with
    | [] => [[c]]
    | l :: ls => (c :: l) :: ls

/-- Following the specification's words only (section 3, trailer mode), for
comparison with the implementation: the trailer values taken from the
individual lines of the raw text that are of the form
`Signed-off-by: <value>` (case-insensitive), `<value>` trimmed — this
line-by-line reading never takes a value from a different line than its
`Signed-off-by:` marker. -/
def specLineSignOffValues (raw : String) : List String :=
  (splitLines raw.data).filterMap (fun line =>
    match matchLiteralCI sobLit line with
    | some rest => some (String.mk (jsTrim rest))
    | none => none)

namespace IgnoreForAuthorsV2

/-- `IgnoreForAuthorsRuleOptions` of the second variant, as runtime values. -/
structure IgnoreForAuthorsRuleOptions (V : Type) : Type where
signOffPatternsToIgnore : JsArrayField JSVal
rulesToEnforce : JsArrayField (ExternalRuleToEnforce V)

/-- The `if (signOffPatternsToIgnore && Array.isArray(...)) { ... }` block
of the second variant: `some` when that block returns (configuration error
or bypass success), `none` when control falls through. The inner guards
mirror the source: the pattern list must be non-empty and at least one
trailer must have been extracted before any matching is attempted. -/
def bypassCheck (rawCommitMessage : String) (field : JsArrayField JSVal) :
    Option (Except JsError RuleOutcome) :=
  match field with
  | JsArrayField.arr pats =>
    (match allStrings? pats with
     | none =>
       some (Except.ok (false, "Configuration error: 'signOffPatternsToIgnore' must be an array of strings."))
     | some strs =>
       if strs.length > 0 then
         let extractedSignOffs := extractSignOffs rawCommitMessage
         if extractedSignOffs.length > 0 then
           match strs.find? (fun ignorePattern =>
               extractedSignOffs.any (fun actualSignOff => jsIncludes actualSignOff ignorePattern)) with
           | some matchedPattern =>
             some (Except.ok (true, "Commit has a 'Signed-off-by' line matching pattern ('" ++ matchedPattern ++ "'). Ruleset defined in 'rulesToEnforce' bypassed."))
           | none => none
         else none
       else none)
  | JsArrayField.falsy => none
  | JsArrayField.notArray => none

/-- The second variant of `ignoreForAuthors` (patterns against extracted
`Signed-off-by:` trailer values). -/
def ignoreForAuthors {V : Type} (env : Env V) (parsedCommitData : Commit)
    (whenCond : RuleConfigCondition) (value : Option (IgnoreForAuthorsRuleOptions V)) :
    Except JsError RuleOutcome × List (Event V) :=
  if whenCond = RuleConfigCondition.never then
    (Except.ok (true, ""), [])
  else
    let options := value.getD { signOffPatternsToIgnore := JsArrayField.falsy, rulesToEnforce := JsArrayField.falsy }
    match parsedCommitData.raw with
    | JSVal.nonString =>
      (Except.ok (false, "Raw commit message is not available or is invalid."), [])
    | JSVal.str rawCommitMessage =>
      match bypassCheck rawCommitMessage options.signOffPatternsToIgnore with
      | some outcome => (outcome, [])
      | none =>
        match options.rulesToEnforce with
        | JsArrayField.arr (rc :: rest) =>
          enforceRules "" "[via " env parsedCommitData (rc :: rest)
        | JsArrayField.arr [] =>
          (Except.ok (true, "No rules configured in \"rulesToEnforce\" for this author/commit, or author was ignored. Rule passes."), [])
        | JsArrayField.falsy =>
          (Except.ok (true, "No rules configured in \"rulesToEnforce\" for this author/commit, or author was ignored. Rule passes."), [])
        | JsArrayField.notArray =>
          (Except.ok (true, "No rules configured in \"rulesToEnforce\" for this author/commit, or author was ignored. Rule passes."), [])

end IgnoreForAuthorsV2

/-! Concrete fixtures used by the closed witness and counterexample
theorems below. -/

/-- An environment in which every dynamic import throws. -/
def envThrows : Env Nat := fun _ => ImportResult.throws "module not found"

/-- A delegated rule that always passes. -/
def passFn : RuleFn Nat := fun _ _ _ => InvokeResult.tuple true "ok"

/-- A delegated rule that always reports failure with message `boom`. -/
def failFn : RuleFn Nat := fun _ _ _ => InvokeResult.tuple false "boom"

/-- A delegated rule that throws / returns a rejected promise. -/
def rejectFn : RuleFn Nat := fun _ _ _ => InvokeResult.reject "boom"

/-- A delegated rule that resolves to a non-iterable value. -/
def nonIterFn : RuleFn Nat := fun _ _ _ => InvokeResult.nonIterable

/-- A one-rule catalogue exposing `f` under the name `ruleX`. -/
def catalogWith (f : RuleFn Nat) : Catalog Nat :=
  fun rn => if rn = "ruleX" then CatalogEntry.fn f else CatalogEntry.missing

/-- An environment in which every package loads to a module whose default
export wraps the one-rule catalogue of `f`. -/
def envWith (f : RuleFn Nat) : Env Nat :=
  fun _ => ImportResult.ok
    { default := DefaultExport.objWithRules (catalogWith f), rules := RulesExport.notObject }

/-- The spec `{packageName: 'pkgA', ruleName: 'ruleX', value: 0}`. -/
def specX : ExternalRuleToEnforce Nat :=
  ExternalRuleToEnforce.obj (JSVal.str "pkgA") (JSVal.str "ruleX") 0

/-- A module for the one-rule catalogue of `f`. -/
def moduleWith (f : RuleFn Nat) : LoadedCommitlintPluginModule Nat :=
  { default := DefaultExport.objWithRules (catalogWith f), rules := RulesExport.notObject }

/-- An environment in which `pkgGood` exposes a passing rule and every
other package exposes a failing one. -/
def envGoodBad : Env Nat :=
  fun pn => if pn = "pkgGood" then ImportResult.ok (moduleWith passFn)
    else ImportResult.ok (moduleWith failFn)


/-! Helper lemmas about the string and list operations of the embedding. -/

theorem jsIncludes_iff (s pat : String) :
    jsIncludes s pat = true ↔ pat.data <:+: s.data := by
  simp [jsIncludes]

theorem jsIncludes_sandwich (a p b : String) : jsIncludes (a ++ p ++ b) p = true := by
  rw [jsIncludes_iff, String.data_append, String.data_append]
  exact List.infix_append _ _ _

theorem jsIncludes_append_right (a p : String) : jsIncludes (a ++ p) p = true := by
  have h := jsIncludes_sandwich a p ""
  rwa [String.append_empty] at h

theorem jsIncludes_empty (s : String) : jsIncludes s "" = true := by
  rw [jsIncludes_iff]
  exact List.nil_infix

theorem allStrings?_map_str (l : List String) :
    allStrings? (l.map JSVal.str) = some l := by
  induction l with
  | nil => rfl
  | cons a t ih => simp [allStrings?, ih]

theorem allStrings?_eq_none {l : List JSVal} (h : JSVal.nonString ∈ l) :
    allStrings? l = none := by
  induction l with
  | nil => cases h
  | cons a t ih =>
    cases a with
    | nonString => rfl
    | str s =>
      have ht : JSVal.nonString ∈ t := by
        cases h with
        | tail _ h => exact h
      simp [allStrings?, ih ht]

theorem find?_append_of_none {α : Type} (p : α → Bool) (l₁ l₂ : List α)
    (h : ∀ x ∈ l₁, p x = false) : (l₁ ++ l₂).find? p = l₂.find? p := by
  induction l₁ with
  | nil => rfl
  | cons a t ih =>
    rw [List.cons_append, List.find?_cons_of_neg]
    · exact ih fun x hx => h x (List.mem_cons_of_mem _ hx)
    · simp [h a (List.mem_cons_self _ _)]

/-! Branch equations for the shared enforcement loop. -/

theorem enforceRules_nil {V : Type} (pfx viaPfx : String) (env : Env V) (parsed : Commit) :
    enforceRules pfx viaPfx env parsed []
      = (Except.ok (true, pfx ++ "All configured \"rulesToEnforce\" passed for this author."), []) := rfl

theorem enforceRules_cons_falsy {V : Type} (pfx viaPfx : String) (env : Env V) (parsed : Commit)
    (rest : List (ExternalRuleToEnforce V)) :
    enforceRules pfx viaPfx env parsed (ExternalRuleToEnforce.falsy :: rest)
      = (Except.ok (false, pfx ++ "Invalid rule configuration in 'rulesToEnforce': 'packageName' and 'ruleName' must be strings."), []) := rfl

theorem enforceRules_cons_badPackageName {V : Type} (pfx viaPfx : String) (env : Env V)
    (parsed : Commit) (rn : JSVal) (v : V) (rest : List (ExternalRuleToEnforce V)) :
    enforceRules pfx viaPfx env parsed (ExternalRuleToEnforce.obj JSVal.nonString rn v :: rest)
      = (Except.ok (false, pfx ++ "Invalid rule configuration in 'rulesToEnforce': 'packageName' and 'ruleName' must be strings."), []) := by
  cases rn <;> rfl

theorem enforceRules_cons_badRuleName {V : Type} (pfx viaPfx : String) (env : Env V)
    (parsed : Commit) (pns : String) (v : V) (rest : List (ExternalRuleToEnforce V)) :
    enforceRules pfx viaPfx env parsed (ExternalRuleToEnforce.obj (JSVal.str pns) JSVal.nonString v :: rest)
      = (Except.ok (false, pfx ++ "Invalid rule configuration in 'rulesToEnforce': 'packageName' and 'ruleName' must be strings."), []) := rfl

theorem enforceRules_cons_throws {V : Type} {env : Env V} {pns e : String}
    (pfx viaPfx : String) (parsed : Commit) (rns : String) (v : V)
    (rest : List (ExternalRuleToEnforce V))
    (henv : env pns = ImportResult.throws e) :
    enforceRules pfx viaPfx env parsed (ExternalRuleToEnforce.obj (JSVal.str pns) (JSVal.str rns) v :: rest)
      = (Except.ok (false, pfx ++ "Error loading plugin package '" ++ pns ++ "': " ++ e),
         [Event.load pns]) := by
  simp [enforceRules, henv]

theorem enforceRules_cons_notFound {V : Type} {env : Env V} {pns : String}
    {m : LoadedCommitlintPluginModule V} {rns : String}
    (pfx viaPfx : String) (parsed : Commit) (v : V) (rest : List (ExternalRuleToEnforce V))
    (henv : env pns = ImportResult.ok m) (hres : resolveRuleFunction m rns = none) :
    enforceRules pfx viaPfx env parsed (ExternalRuleToEnforce.obj (JSVal.str pns) (JSVal.str rns) v :: rest)
      = (Except.ok (false, pfx ++ "Rule '" ++ rns ++ "' not found or not a function in package '" ++ pns ++ "'."),
         [Event.load pns]) := by
  simp [enforceRules, henv, hres]

theorem enforceRules_cons_reject {V : Type} {env : Env V} {pns : String}
    {m : LoadedCommitlintPluginModule V} {rns : String} {f : RuleFn V} {parsed : Commit}
    {v : V} {msg : String}
    (pfx viaPfx : String) (rest : List (ExternalRuleToEnforce V))
    (henv : env pns = ImportResult.ok m) (hres : resolveRuleFunction m rns = some f)
    (hinv : f parsed RuleConfigCondition.always v = InvokeResult.reject msg) :
    enforceRules pfx viaPfx env parsed (ExternalRuleToEnforce.obj (JSVal.str pns) (JSVal.str rns) v :: rest)
      = (Except.error (JsError.userThrown msg),
         [Event.load pns, Event.invoke pns rns parsed RuleConfigCondition.always v]) := by
  simp [enforceRules, henv, hres, hinv]

theorem enforceRules_cons_nonIterable {V : Type} {env : Env V} {pns : String}
    {m : LoadedCommitlintPluginModule V} {rns : String} {f : RuleFn V} {parsed : Commit}
    {v : V}
    (pfx viaPfx : String) (rest : List (ExternalRuleToEnforce V))
    (henv : env pns = ImportResult.ok m) (hres : resolveRuleFunction m rns = some f)
    (hinv : f parsed RuleConfigCondition.always v = InvokeResult.nonIterable) :
    enforceRules pfx viaPfx env parsed (ExternalRuleToEnforce.obj (JSVal.str pns) (JSVal.str rns) v :: rest)
      = (Except.error JsError.typeError,
         [Event.load pns, Event.invoke pns rns parsed RuleConfigCondition.always v]) := by
  simp [enforceRules, henv, hres, hinv]

theorem enforceRules_cons_fail {V : Type} {env : Env V} {pns : String}
    {m : LoadedCommitlintPluginModule V} {rns : String} {f : RuleFn V} {parsed : Commit}
    {v : V} {msg : String}
    (pfx viaPfx : String) (rest : List (ExternalRuleToEnforce V))
    (henv : env pns = ImportResult.ok m) (hres : resolveRuleFunction m rns = some f)
    (hinv : f parsed RuleConfigCondition.always v = InvokeResult.tuple false msg) :
    enforceRules pfx viaPfx env parsed (ExternalRuleToEnforce.obj (JSVal.str pns) (JSVal.str rns) v :: rest)
      = (Except.ok (false, viaPfx ++ pns ++ "/" ++ rns ++ "] " ++ msg),
         [Event.load pns, Event.invoke pns rns parsed RuleConfigCondition.always v]) := by
  simp [enforceRules, henv, hres, hinv]

theorem enforceRules_cons_pass {V : Type} {env : Env V} {pns : String}
    {m : LoadedCommitlintPluginModule V} {rns : String} {f : RuleFn V} {parsed : Commit}
    {v : V} {msg : String}
    (pfx viaPfx : String) (rest : List (ExternalRuleToEnforce V))
    (henv : env pns = ImportResult.ok m) (hres : resolveRuleFunction m rns = some f)
    (hinv : f parsed RuleConfigCondition.always v = InvokeResult.tuple true msg) :
    enforceRules pfx viaPfx env parsed (ExternalRuleToEnforce.obj (JSVal.str pns) (JSVal.str rns) v :: rest)
      = ((enforceRules pfx viaPfx env parsed rest).fst,
         Event.load pns :: Event.invoke pns rns parsed RuleConfigCondition.always v
           :: (enforceRules pfx viaPfx env parsed rest).snd) := by
  simp [enforceRules, henv, hres, hinv]

/-! Bridging lemmas: how each variant's top-level function reduces in the
`'always'` case once `parsed.raw` is a string. -/

theorem v1_run_bypass {V : Type} (env : Env V) (c : Commit) (rm : String)
    (pats : JsArrayField JSVal) (rules : JsArrayField (ExternalRuleToEnforce V))
    (r : Except JsError RuleOutcome)
    (hraw : c.raw = JSVal.str rm)
    (hbp : IgnoreForAuthorsV1.bypassCheck rm pats = some r) :
    IgnoreForAuthorsV1.ignoreForAuthors env c RuleConfigCondition.always (some ⟨pats, rules⟩)
      = (r, []) := by
  simp [IgnoreForAuthorsV1.ignoreForAuthors, hraw, hbp]

theorem v1_run_no_rules {V : Type} (env : Env V) (c : Commit) (rm : String)
    (pats : JsArrayField JSVal) (rules : JsArrayField (ExternalRuleToEnforce V))
    (hraw : c.raw = JSVal.str rm)
    (hbp : IgnoreForAuthorsV1.bypassCheck rm pats = none)
    (hrules : rules = JsArrayField.falsy ∨ rules = JsArrayField.notArray
      ∨ rules = JsArrayField.arr []) :
    IgnoreForAuthorsV1.ignoreForAuthors env c RuleConfigCondition.always (some ⟨pats, rules⟩)
      = (Except.ok (true, IgnoreForAuthorsV1.pfx ++ "No rules configured in \"rulesToEnforce\" for this author, or author was ignored. Rule passes."), []) := by
  rcases hrules with h | h | h <;> subst h <;>
    simp [IgnoreForAuthorsV1.ignoreForAuthors, hraw, hbp]

theorem v1_run_enforce {V : Type} (env : Env V) (c : Commit) (rm : String)
    (pats : JsArrayField JSVal) (rc : ExternalRuleToEnforce V)
    (rest : List (ExternalRuleToEnforce V))
    (hraw : c.raw = JSVal.str rm)
    (hbp : IgnoreForAuthorsV1.bypassCheck rm pats = none) :
    IgnoreForAuthorsV1.ignoreForAuthors env c RuleConfigCondition.always
        (some ⟨pats, JsArrayField.arr (rc :: rest)⟩)
      = enforceRules IgnoreForAuthorsV1.pfx IgnoreForAuthorsV1.viaPfx env c (rc :: rest) := by
  simp [IgnoreForAuthorsV1.ignoreForAuthors, hraw, hbp]

theorem v2_run_bypass {V : Type} (env : Env V) (c : Commit) (rm : String)
    (pats : JsArrayField JSVal) (rules : JsArrayField (ExternalRuleToEnforce V))
    (r : Except JsError RuleOutcome)
    (hraw : c.raw = JSVal.str rm)
    (hbp : IgnoreForAuthorsV2.bypassCheck rm pats = some r) :
    IgnoreForAuthorsV2.ignoreForAuthors env c RuleConfigCondition.always (some ⟨pats, rules⟩)
      = (r, []) := by
  simp [IgnoreForAuthorsV2.ignoreForAuthors, hraw, hbp]

theorem v2_run_no_rules {V : Type} (env : Env V) (c : Commit) (rm : String)
    (pats : JsArrayField JSVal) (rules : JsArrayField (ExternalRuleToEnforce V))
    (hraw : c.raw = JSVal.str rm)
    (hbp : IgnoreForAuthorsV2.bypassCheck rm pats = none)
    (hrules : rules = JsArrayField.falsy ∨ rules = JsArrayField.notArray
      ∨ rules = JsArrayField.arr []) :
    IgnoreForAuthorsV2.ignoreForAuthors env c RuleConfigCondition.always (some ⟨pats, rules⟩)
      = (Except.ok (true, "No rules configured in \"rulesToEnforce\" for this author/commit, or author was ignored. Rule passes."), []) := by
  rcases hrules with h | h | h <;> subst h <;>
    simp [IgnoreForAuthorsV2.ignoreForAuthors, hraw, hbp]

theorem v2_run_enforce {V : Type} (env : Env V) (c : Commit) (rm : String)
    (pats : JsArrayField JSVal) (rc : ExternalRuleToEnforce V)
    (rest : List (ExternalRuleToEnforce V))
    (hraw : c.raw = JSVal.str rm)
    (hbp : IgnoreForAuthorsV2.bypassCheck rm pats = none) :
    IgnoreForAuthorsV2.ignoreForAuthors env c RuleConfigCondition.always
        (some ⟨pats, JsArrayField.arr (rc :: rest)⟩)
      = enforceRules "" "[via " env c (rc :: rest) := by
  simp [IgnoreForAuthorsV2.ignoreForAuthors, hraw, hbp]

/-- Every invocation the enforcement loop performs passes the hard-coded
condition `'always'` and the engine's own commit object, and its
package/rule/value triple comes from an entry of the list. -/
theorem enforceRules_invoke_events {V : Type} (pfx viaPfx : String) (env : Env V)
    (parsed : Commit) (rcs : List (ExternalRuleToEnforce V)) :
    ∀ e ∈ (enforceRules pfx viaPfx env parsed rcs).snd,
      ∀ pn rn cm cond v, e = Event.invoke pn rn cm cond v →
        cond = RuleConfigCondition.always ∧ cm = parsed ∧
          ExternalRuleToEnforce.obj (JSVal.str pn) (JSVal.str rn) v ∈ rcs := by
  induction rcs with
  | nil => simp [enforceRules_nil]
  | cons rc rest ih =>
    cases rc with
    | falsy => simp [enforceRules_cons_falsy]
    | obj pn rn v =>
      cases pn with
      | nonString => simp [enforceRules_cons_badPackageName]
      | str pns =>
        cases rn with
        | nonString => simp [enforceRules_cons_badRuleName]
        | str rns =>
          cases henv : env pns with
          | throws e =>
            rw [enforceRules_cons_throws pfx viaPfx parsed rns v rest henv]
            simp
          | ok m =>
            cases hres : resolveRuleFunction m rns with
            | none =>
              rw [enforceRules_cons_notFound pfx viaPfx parsed v rest henv hres]
              simp
            | some f =>
              cases hinv : f parsed RuleConfigCondition.always v with
              | reject msg =>
                rw [enforceRules_cons_reject pfx viaPfx rest henv hres hinv]
                intro e he pn' rn' cm' cond' v' heq
                subst heq
                simp at he
                rcases he with ⟨h1, h2, h3, h4, h5⟩
                subst h1; subst h2; subst h3; subst h4; subst h5
                exact ⟨rfl, rfl, List.mem_cons_self _ _⟩
              | nonIterable =>
                rw [enforceRules_cons_nonIterable pfx viaPfx rest henv hres hinv]
                intro e he pn' rn' cm' cond' v' heq
                subst heq
                simp at he
                rcases he with ⟨h1, h2, h3, h4, h5⟩
                subst h1; subst h2; subst h3; subst h4; subst h5
                exact ⟨rfl, rfl, List.mem_cons_self _ _⟩
              | tuple isValid msg =>
                cases isValid with
                | false =>
                  rw [enforceRules_cons_fail pfx viaPfx rest henv hres hinv]
                  intro e he pn' rn' cm' cond' v' heq
                  subst heq
                  simp at he
                  rcases he with ⟨h1, h2, h3, h4, h5⟩
                  subst h1; subst h2; subst h3; subst h4; subst h5
                  exact ⟨rfl, rfl, List.mem_cons_self _ _⟩
                | true =>
                  rw [enforceRules_cons_pass pfx viaPfx rest henv hres hinv]
                  intro e he pn' rn' cm' cond' v' heq
                  subst heq
                  simp at he
                  rcases he with ⟨h1, h2, h3, h4, h5⟩ | hmem
                  · subst h1; subst h2; subst h3; subst h4; subst h5
                    exact ⟨rfl, rfl, List.mem_cons_self _ _⟩
                  · have := ih _ hmem _ _ _ _ _ rfl
                    exact ⟨this.1, this.2.1, List.mem_cons_of_mem _ this.2.2⟩

/-- A block of specs that all resolve and pass contributes its loads and
invocations to the trace and hands control to the remainder of the list. -/
theorem enforceRules_prepend_passing {V : Type} (pfx viaPfx : String) (env : Env V)
    (parsed : Commit) (pre : List (String × String × V))
    (tail : List (ExternalRuleToEnforce V))
    (hpre : ∀ x ∈ pre, ∃ m f msg, env x.1 = ImportResult.ok m ∧
        resolveRuleFunction m x.2.1 = some f ∧
        f parsed RuleConfigCondition.always x.2.2 = InvokeResult.tuple true msg) :
    enforceRules pfx viaPfx env parsed
        (pre.map (fun x => ExternalRuleToEnforce.obj (JSVal.str x.1) (JSVal.str x.2.1) x.2.2) ++ tail)
      = ((enforceRules pfx viaPfx env parsed tail).fst,
         pre.flatMap (fun x =>
             [Event.load x.1, Event.invoke x.1 x.2.1 parsed RuleConfigCondition.always x.2.2])
           ++ (enforceRules pfx viaPfx env parsed tail).snd) := by
  induction pre with
  | nil => simp
  | cons a t ih =>
    obtain ⟨m, f, msg, henv, hres, hinv⟩ := hpre a (List.mem_cons_self _ _)
    rw [List.map_cons, List.cons_append, enforceRules_cons_pass pfx viaPfx _ henv hres hinv,
      ih (fun x hx => hpre x (List.mem_cons_of_mem _ hx))]
    simp

/-! The claims. -/

/-- C7: for every module environment, commit (even one with a non-string
`raw`) and options value (even an absent or invalid one), calling either
variant with condition `'never'` returns `[true, '']` at once, performing
no load or invocation; the result does not depend on the commit, the
options or the environment, so no field of either is read. -/
theorem c7_never_short_circuit {V : Type} (env1 env2 : Env V) (c1 c2 : Commit)
    (opts1 : Option (IgnoreForAuthorsV1.IgnoreForAuthorsRuleOptions V))
    (opts2 : Option (IgnoreForAuthorsV2.IgnoreForAuthorsRuleOptions V)) :
    IgnoreForAuthorsV1.ignoreForAuthors env1 c1 RuleConfigCondition.never opts1
        = (Except.ok (true, ""), [])
    ∧ IgnoreForAuthorsV2.ignoreForAuthors env2 c2 RuleConfigCondition.never opts2
        = (Except.ok (true, ""), []) :=
  ⟨rfl, rfl⟩

/-- C1 counterexample: with a perfectly well-formed configuration, a
delegated rule that rejects makes the engine's promise reject with the
rule's thrown value — the exception is not converted to a
`{passed:false}` outcome but escapes to the caller. -/
theorem c1_counterexample :
    (IgnoreForAuthorsV1.ignoreForAuthors (envWith rejectFn) { raw := JSVal.str "feat: x" }
        RuleConfigCondition.always (some ⟨JsArrayField.falsy, JsArrayField.arr [specX]⟩)).fst
      = Except.error (JsError.userThrown "boom")
    ∧ (IgnoreForAuthorsV2.ignoreForAuthors (envWith nonIterFn) { raw := JSVal.str "feat: x" }
        RuleConfigCondition.always (some ⟨JsArrayField.falsy, JsArrayField.arr [specX]⟩)).fst
      = Except.error JsError.typeError :=
  ⟨rfl, rfl⟩

/-- C1 (amended): exceptions thrown during module loading are caught and
converted to a failing `[false, message]` outcome, exactly as claimed; but
an exception arising from invoking a successfully resolved delegated rule
— a synchronous throw or rejected promise, or a resolved value that is not
a `[boolean, string]` tuple (non-iterable, so destructuring throws a
`TypeError`) — is not caught: it escapes the engine to its caller as a
rejected promise, in both variants. -/
theorem c1_amended_exception_policy {V : Type} :
    (∀ (pfx viaPfx : String) (env : Env V) (parsed : Commit) (pns rns : String) (v : V)
       (rest : List (ExternalRuleToEnforce V)) (e : String),
      env pns = ImportResult.throws e →
      enforceRules pfx viaPfx env parsed
          (ExternalRuleToEnforce.obj (JSVal.str pns) (JSVal.str rns) v :: rest)
        = (Except.ok (false, pfx ++ "Error loading plugin package '" ++ pns ++ "': " ++ e),
           [Event.load pns]))
    ∧ (∀ (env : Env V) (c : Commit) (rm : String) (pats : JsArrayField JSVal)
         (pns rns : String) (v : V) (rest : List (ExternalRuleToEnforce V))
         (m : LoadedCommitlintPluginModule V) (f : RuleFn V) (msg : String),
      c.raw = JSVal.str rm →
      IgnoreForAuthorsV1.bypassCheck rm pats = none →
      env pns = ImportResult.ok m →
      resolveRuleFunction m rns = some f →
      f c RuleConfigCondition.always v = InvokeResult.reject msg →
      (IgnoreForAuthorsV1.ignoreForAuthors env c RuleConfigCondition.always
          (some ⟨pats, JsArrayField.arr (ExternalRuleToEnforce.obj (JSVal.str pns) (JSVal.str rns) v :: rest)⟩)).fst
        = Except.error (JsError.userThrown msg))
    ∧ (∀ (env : Env V) (c : Commit) (rm : String) (pats : JsArrayField JSVal)
         (pns rns : String) (v : V) (rest : List (ExternalRuleToEnforce V))
         (m : LoadedCommitlintPluginModule V) (f : RuleFn V),
      c.raw = JSVal.str rm →
      IgnoreForAuthorsV2.bypassCheck rm pats = none →
      env pns = ImportResult.ok m →
      resolveRuleFunction m rns = some f →
      f c RuleConfigCondition.always v = InvokeResult.nonIterable →
      (IgnoreForAuthorsV2.ignoreForAuthors env c RuleConfigCondition.always
          (some ⟨pats, JsArrayField.arr (ExternalRuleToEnforce.obj (JSVal.str pns) (JSVal.str rns) v :: rest)⟩)).fst
        = Except.error JsError.typeError) := by
  refine ⟨?_, ?_, ?_⟩
  · intro pfx viaPfx env parsed pns rns v rest e henv
    exact enforceRules_cons_throws pfx viaPfx parsed rns v rest henv
  · intro env c rm pats pns rns v rest m f msg hraw hbp henv hres hinv
    rw [v1_run_enforce env c rm pats _ rest hraw hbp,
      enforceRules_cons_reject _ _ rest henv hres hinv]
  · intro env c rm pats pns rns v rest m f hraw hbp henv hres hinv
    rw [v2_run_enforce env c rm pats _ rest hraw hbp,
      enforceRules_cons_nonIterable _ _ rest henv hres hinv]

/-- C1 witness: the amended theorem applied at concrete inputs — a
throwing import is converted to a failing outcome, a rejecting rule makes
the first variant's promise reject, a non-iterable rule result makes the
second variant's promise reject. -/
theorem c1_witness :
    enforceRules "" "[via " envThrows { raw := JSVal.str "feat: x" }
        [ExternalRuleToEnforce.obj (JSVal.str "pkgA") (JSVal.str "ruleX") 0]
      = (Except.ok (false, "Error loading plugin package 'pkgA': module not found"),
         [Event.load "pkgA"])
    ∧ (IgnoreForAuthorsV1.ignoreForAuthors (envWith rejectFn) { raw := JSVal.str "feat: x" }
        RuleConfigCondition.always (some ⟨JsArrayField.falsy, JsArrayField.arr [specX]⟩)).fst
      = Except.error (JsError.userThrown "boom")
    ∧ (IgnoreForAuthorsV2.ignoreForAuthors (envWith nonIterFn) { raw := JSVal.str "feat: x" }
        RuleConfigCondition.always (some ⟨JsArrayField.falsy, JsArrayField.arr [specX]⟩)).fst
      = Except.error JsError.typeError := by
  refine ⟨?_, ?_, ?_⟩
  · have h := c1_amended_exception_policy (V := Nat) |>.1 "" "[via " envThrows
      { raw := JSVal.str "feat: x" } "pkgA" "ruleX" 0 [] "module not found" rfl
    simpa using h
  · exact c1_amended_exception_policy (V := Nat) |>.2.1 (envWith rejectFn)
      { raw := JSVal.str "feat: x" } "feat: x" JsArrayField.falsy "pkgA" "ruleX" 0 []
      _ rejectFn "boom" rfl rfl rfl rfl rfl
  · exact c1_amended_exception_policy (V := Nat) |>.2.2 (envWith nonIterFn)
      { raw := JSVal.str "feat: x" } "feat: x" JsArrayField.falsy "pkgA" "ruleX" 0 []
      _ nonIterFn rfl rfl rfl rfl rfl

/-- C5: malformed engine input — a non-string raw commit text, a
bypass-pattern array containing a non-string entry (whatever
`rulesToEnforce` holds), or an enforcement entry whose `packageName` or
`ruleName` fails the string check when the loop reaches it — terminates
the evaluation at once with an ordinary failing `[false, message]`
outcome carrying the corresponding descriptive message, with no load or
invocation performed at that point and no exception crossing the engine
boundary; in both variants. -/
theorem c5_malformed_input_fails {V : Type} :
    (∀ (env : Env V) (c : Commit) (opts : Option (IgnoreForAuthorsV1.IgnoreForAuthorsRuleOptions V)),
      c.raw = JSVal.nonString →
      IgnoreForAuthorsV1.ignoreForAuthors env c RuleConfigCondition.always opts
        = (Except.ok (false, IgnoreForAuthorsV1.pfx ++ "Raw commit message is not available or is invalid."), []))
    ∧ (∀ (env : Env V) (c : Commit) (opts : Option (IgnoreForAuthorsV2.IgnoreForAuthorsRuleOptions V)),
      c.raw = JSVal.nonString →
      IgnoreForAuthorsV2.ignoreForAuthors env c RuleConfigCondition.always opts
        = (Except.ok (false, "Raw commit message is not available or is invalid."), []))
    ∧ (∀ (env : Env V) (c : Commit) (rm : String) (pats : List JSVal)
         (rules : JsArrayField (ExternalRuleToEnforce V)),
      c.raw = JSVal.str rm → JSVal.nonString ∈ pats →
      IgnoreForAuthorsV1.ignoreForAuthors env c RuleConfigCondition.always
          (some ⟨JsArrayField.arr pats, rules⟩)
        = (Except.ok (false, IgnoreForAuthorsV1.pfx ++ "Configuration error: 'ignoreAuthorPatterns' must be an array of strings."), []))
    ∧ (∀ (env : Env V) (c : Commit) (rm : String) (pats : List JSVal)
         (rules : JsArrayField (ExternalRuleToEnforce V)),
      c.raw = JSVal.str rm → JSVal.nonString ∈ pats →
      IgnoreForAuthorsV2.ignoreForAuthors env c RuleConfigCondition.always
          (some ⟨JsArrayField.arr pats, rules⟩)
        = (Except.ok (false, "Configuration error: 'signOffPatternsToIgnore' must be an array of strings."), []))
    ∧ (∀ (env : Env V) (c : Commit) (rm : String) (pats : JsArrayField JSVal)
         (rc : ExternalRuleToEnforce V) (rest : List (ExternalRuleToEnforce V)),
      c.raw = JSVal.str rm →
      IgnoreForAuthorsV1.bypassCheck rm pats = none →
      (rc = ExternalRuleToEnforce.falsy
        ∨ ∃ pn rn v, rc = ExternalRuleToEnforce.obj pn rn v
            ∧ (pn = JSVal.nonString ∨ rn = JSVal.nonString)) →
      IgnoreForAuthorsV1.ignoreForAuthors env c RuleConfigCondition.always
          (some ⟨pats, JsArrayField.arr (rc :: rest)⟩)
        = (Except.ok (false, IgnoreForAuthorsV1.pfx ++ "Invalid rule configuration in 'rulesToEnforce': 'packageName' and 'ruleName' must be strings."), []))
    ∧ (∀ (env : Env V) (c : Commit) (rm : String) (pats : JsArrayField JSVal)
         (rc : ExternalRuleToEnforce V) (rest : List (ExternalRuleToEnforce V)),
      c.raw = JSVal.str rm →
      IgnoreForAuthorsV2.bypassCheck rm pats = none →
      (rc = ExternalRuleToEnforce.falsy
        ∨ ∃ pn rn v, rc = ExternalRuleToEnforce.obj pn rn v
            ∧ (pn = JSVal.nonString ∨ rn = JSVal.nonString)) →
      IgnoreForAuthorsV2.ignoreForAuthors env c RuleConfigCondition.always
          (some ⟨pats, JsArrayField.arr (rc :: rest)⟩)
        = (Except.ok (false, "Invalid rule configuration in 'rulesToEnforce': 'packageName' and 'ruleName' must be strings."), [])) := by
  have badEntry : ∀ (pfx viaPfx : String) (env : Env V) (c : Commit)
      (rc : ExternalRuleToEnforce V) (rest : List (ExternalRuleToEnforce V)),
      (rc = ExternalRuleToEnforce.falsy
        ∨ ∃ pn rn v, rc = ExternalRuleToEnforce.obj pn rn v
            ∧ (pn = JSVal.nonString ∨ rn = JSVal.nonString)) →
      enforceRules pfx viaPfx env c (rc :: rest)
        = (Except.ok (false, pfx ++ "Invalid rule configuration in 'rulesToEnforce': 'packageName' and 'ruleName' must be strings."), []) := by
    intro pfx viaPfx env c rc rest hbad
    rcases hbad with rfl | ⟨pn, rn, v, rfl, hbad2⟩
    · exact enforceRules_cons_falsy pfx viaPfx env c rest
    · cases pn with
      | nonString => exact enforceRules_cons_badPackageName pfx viaPfx env c rn v rest
      | str pns =>
        rcases hbad2 with h | rfl
        · cases h
        · exact enforceRules_cons_badRuleName pfx viaPfx env c pns v rest
  refine ⟨?_, ?_, ?_, ?_, ?_, ?_⟩
  · intro env c opts hraw
    simp [IgnoreForAuthorsV1.ignoreForAuthors, hraw]
  · intro env c opts hraw
    simp [IgnoreForAuthorsV2.ignoreForAuthors, hraw]
  · intro env c rm pats rules hraw hmem
    exact v1_run_bypass env c rm _ rules _ hraw
      (by simp [IgnoreForAuthorsV1.bypassCheck, allStrings?_eq_none hmem])
  · intro env c rm pats rules hraw hmem
    exact v2_run_bypass env c rm _ rules _ hraw
      (by simp [IgnoreForAuthorsV2.bypassCheck, allStrings?_eq_none hmem])
  · intro env c rm pats rc rest hraw hbp hbad
    rw [v1_run_enforce env c rm pats rc rest hraw hbp]
    exact badEntry _ _ env c rc rest hbad
  · intro env c rm pats rc rest hraw hbp hbad
    rw [v2_run_enforce env c rm pats rc rest hraw hbp]
    exact badEntry _ _ env c rc rest hbad

/-- C5 witness: the six parts of the malformed-input theorem applied at
concrete inputs: a `null` raw message in both variants, a pattern list
`['valid', 123]` in both variants, and a `rulesToEnforce` head entry with
a non-string `packageName` in both variants. -/
theorem c5_witness :
    IgnoreForAuthorsV1.ignoreForAuthors envThrows { raw := JSVal.nonString }
        RuleConfigCondition.always none
      = (Except.ok (false, IgnoreForAuthorsV1.pfx ++ "Raw commit message is not available or is invalid."), [])
    ∧ IgnoreForAuthorsV2.ignoreForAuthors envThrows { raw := JSVal.nonString }
        RuleConfigCondition.always none
      = (Except.ok (false, "Raw commit message is not available or is invalid."), [])
    ∧ IgnoreForAuthorsV1.ignoreForAuthors envThrows { raw := JSVal.str "feat: x" }
        RuleConfigCondition.always
        (some ⟨JsArrayField.arr [JSVal.str "valid", JSVal.nonString], JsArrayField.arr [specX]⟩)
      = (Except.ok (false, IgnoreForAuthorsV1.pfx ++ "Configuration error: 'ignoreAuthorPatterns' must be an array of strings."), [])
    ∧ IgnoreForAuthorsV2.ignoreForAuthors envThrows { raw := JSVal.str "feat: x" }
        RuleConfigCondition.always
        (some ⟨JsArrayField.arr [JSVal.str "valid", JSVal.nonString], JsArrayField.arr [specX]⟩)
      = (Except.ok (false, "Configuration error: 'signOffPatternsToIgnore' must be an array of strings."), [])
    ∧ IgnoreForAuthorsV1.ignoreForAuthors envThrows { raw := JSVal.str "feat: x" }
        RuleConfigCondition.always
        (some ⟨JsArrayField.falsy,
          JsArrayField.arr [ExternalRuleToEnforce.obj JSVal.nonString (JSVal.str "ruleX") 0]⟩)
      = (Except.ok (false, IgnoreForAuthorsV1.pfx ++ "Invalid rule configuration in 'rulesToEnforce': 'packageName' and 'ruleName' must be strings."), [])
    ∧ IgnoreForAuthorsV2.ignoreForAuthors envThrows { raw := JSVal.str "feat: x" }
        RuleConfigCondition.always
        (some ⟨JsArrayField.falsy,
          JsArrayField.arr [ExternalRuleToEnforce.obj JSVal.nonString (JSVal.str "ruleX") 0]⟩)
      = (Except.ok (false, "Invalid rule configuration in 'rulesToEnforce': 'packageName' and 'ruleName' must be strings."), []) := by
  refine ⟨?_, ?_, ?_, ?_, ?_, ?_⟩
  · exact c5_malformed_input_fails.1 envThrows _ none rfl
  · exact c5_malformed_input_fails.2.1 envThrows _ none rfl
  · exact c5_malformed_input_fails.2.2.1 envThrows _ "feat: x" _ _ rfl (by decide)
  · exact c5_malformed_input_fails.2.2.2.1 envThrows _ "feat: x" _ _ rfl (by decide)
  · exact c5_malformed_input_fails.2.2.2.2.1 envThrows _ "feat: x" JsArrayField.falsy _ _
      rfl rfl (Or.inr ⟨JSVal.nonString, JSVal.str "ruleX", 0, rfl, Or.inl rfl⟩)
  · exact c5_malformed_input_fails.2.2.2.2.2 envThrows _ "feat: x" JsArrayField.falsy _ _
      rfl rfl (Or.inr ⟨JSVal.nonString, JSVal.str "ruleX", 0, rfl, Or.inl rfl⟩)

/-- C8: when the raw text is a string, the bypass block falls through
without a match (or without running), and `rulesToEnforce` is falsy, a
truthy non-array, or a present-but-empty array, both variants succeed with
their "No rules configured" message — an empty list is success, not an
error. The message contains the words `No rules configured`. -/
theorem c8_no_rules_passes {V : Type} :
    (∀ (env : Env V) (c : Commit) (rm : String) (pats : JsArrayField JSVal)
       (rules : JsArrayField (ExternalRuleToEnforce V)),
      c.raw = JSVal.str rm →
      IgnoreForAuthorsV1.bypassCheck rm pats = none →
      (rules = JsArrayField.falsy ∨ rules = JsArrayField.notArray
        ∨ rules = JsArrayField.arr []) →
      IgnoreForAuthorsV1.ignoreForAuthors env c RuleConfigCondition.always (some ⟨pats, rules⟩)
        = (Except.ok (true, IgnoreForAuthorsV1.pfx ++ "No rules configured in \"rulesToEnforce\" for this author, or author was ignored. Rule passes."), []))
    ∧ (∀ (env : Env V) (c : Commit) (rm : String) (pats : JsArrayField JSVal)
       (rules : JsArrayField (ExternalRuleToEnforce V)),
      c.raw = JSVal.str rm →
      IgnoreForAuthorsV2.bypassCheck rm pats = none →
      (rules = JsArrayField.falsy ∨ rules = JsArrayField.notArray
        ∨ rules = JsArrayField.arr []) →
      IgnoreForAuthorsV2.ignoreForAuthors env c RuleConfigCondition.always (some ⟨pats, rules⟩)
        = (Except.ok (true, "No rules configured in \"rulesToEnforce\" for this author/commit, or author was ignored. Rule passes."), []))
    ∧ jsIncludes (IgnoreForAuthorsV1.pfx ++ "No rules configured in \"rulesToEnforce\" for this author, or author was ignored. Rule passes.") "No rules configured" = true
    ∧ jsIncludes "No rules configured in \"rulesToEnforce\" for this author/commit, or author was ignored. Rule passes." "No rules configured" = true := by
  refine ⟨?_, ?_, by decide, by decide⟩
  · intro env c rm pats rules hraw hbp hrules
    exact v1_run_no_rules env c rm pats rules hraw hbp hrules
  · intro env c rm pats rules hraw hbp hrules
    exact v2_run_no_rules env c rm pats rules hraw hbp hrules

/-- C8 witness: both variants applied to a commit with no matching bypass
pattern and an empty `rulesToEnforce` array. -/
theorem c8_witness :
    IgnoreForAuthorsV1.ignoreForAuthors envThrows { raw := JSVal.str "feat: by a human" }
        RuleConfigCondition.always
        (some ⟨JsArrayField.arr [JSVal.str "dependabot[bot]"], JsArrayField.arr []⟩)
      = (Except.ok (true, IgnoreForAuthorsV1.pfx ++ "No rules configured in \"rulesToEnforce\" for this author, or author was ignored. Rule passes."), [])
    ∧ IgnoreForAuthorsV2.ignoreForAuthors envThrows { raw := JSVal.str "feat: by a human" }
        RuleConfigCondition.always
        (some ⟨JsArrayField.arr [JSVal.str "dependabot[bot]"], JsArrayField.arr []⟩)
      = (Except.ok (true, "No rules configured in \"rulesToEnforce\" for this author/commit, or author was ignored. Rule passes."), []) := by
  constructor
  · exact c8_no_rules_passes.1 envThrows _ "feat: by a human" _ _ rfl rfl
      (Or.inr (Or.inr rfl))
  · exact c8_no_rules_passes.2.1 envThrows _ "feat: by a human" _ _ rfl rfl
      (Or.inr (Or.inr rfl))

/-- C2: when the raw text is a string, all bypass patterns are strings, and
— under the variant's matching mode — some pattern matches, evaluation
returns success immediately with the variant's bypass message built around
the first matching pattern in pattern-list order; the result and its empty
effect trace do not depend on `rulesToEnforce` or on the module
environment, so no enforcement entry is validated, resolved or invoked.
The message includes the matched pattern as a substring. -/
theorem c2_bypass_short_circuits {V : Type} :
    (∀ (env : Env V) (c : Commit) (rm : String) (pre post : List String) (p : String)
       (rules : JsArrayField (ExternalRuleToEnforce V)),
      c.raw = JSVal.str rm →
      (∀ q ∈ pre, jsIncludes rm q = false) →
      jsIncludes rm p = true →
      IgnoreForAuthorsV1.ignoreForAuthors env c RuleConfigCondition.always
          (some ⟨JsArrayField.arr ((pre ++ p :: post).map JSVal.str), rules⟩)
        = (Except.ok (true, IgnoreForAuthorsV1.pfx ++ "Commit by ignored author pattern ('" ++ p ++ "'). Ruleset defined in 'rulesToEnforce' bypassed."), [])
      ∧ jsIncludes (IgnoreForAuthorsV1.pfx ++ "Commit by ignored author pattern ('" ++ p ++ "'). Ruleset defined in 'rulesToEnforce' bypassed.") p = true)
    ∧ (∀ (env : Env V) (c : Commit) (rm : String) (pre post : List String) (p : String)
       (rules : JsArrayField (ExternalRuleToEnforce V)),
      c.raw = JSVal.str rm →
      (∀ q ∈ pre, (extractSignOffs rm).any (fun w => jsIncludes w q) = false) →
      (extractSignOffs rm).any (fun w => jsIncludes w p) = true →
      IgnoreForAuthorsV2.ignoreForAuthors env c RuleConfigCondition.always
          (some ⟨JsArrayField.arr ((pre ++ p :: post).map JSVal.str), rules⟩)
        = (Except.ok (true, "Commit has a 'Signed-off-by' line matching pattern ('" ++ p ++ "'). Ruleset defined in 'rulesToEnforce' bypassed."), [])
      ∧ jsIncludes ("Commit has a 'Signed-off-by' line matching pattern ('" ++ p ++ "'). Ruleset defined in 'rulesToEnforce' bypassed.") p = true) := by
  constructor
  · intro env c rm pre post p rules hraw hpre hp
    have hfind : (pre ++ p :: post).find? (fun q => jsIncludes rm q) = some p := by
      rw [find?_append_of_none _ _ _ hpre]
      exact List.find?_cons_of_pos _ hp
    have hall : allStrings? ((pre ++ p :: post).map JSVal.str) = some (pre ++ p :: post) :=
      allStrings?_map_str _
    refine ⟨v1_run_bypass env c rm _ rules _ hraw ?_, ?_⟩
    · rw [List.map_append, List.map_cons] at hall
      simp [IgnoreForAuthorsV1.bypassCheck, hall, hfind]
    · exact jsIncludes_sandwich
        (IgnoreForAuthorsV1.pfx ++ "Commit by ignored author pattern ('") p
        "'). Ruleset defined in 'rulesToEnforce' bypassed."
  · intro env c rm pre post p rules hraw hpre hp
    obtain ⟨w, hw, hwp⟩ := List.any_eq_true.mp hp
    have hlen1 : 0 < (pre ++ p :: post).length := by
      simp [List.length_append]
    have hlen2 : 0 < (extractSignOffs rm).length :=
      List.length_pos.mpr (List.ne_nil_of_mem hw)
    have hfind : (pre ++ p :: post).find?
        (fun q => (extractSignOffs rm).any (fun w => jsIncludes w q)) = some p := by
      rw [find?_append_of_none _ _ _ hpre]
      exact List.find?_cons_of_pos _ hp
    have hall : allStrings? ((pre ++ p :: post).map JSVal.str) = some (pre ++ p :: post) :=
      allStrings?_map_str _
    refine ⟨v2_run_bypass env c rm _ rules _ hraw ?_, ?_⟩
    · rw [List.map_append, List.map_cons] at hall
      simp [IgnoreForAuthorsV2.bypassCheck, hall, hlen1, hlen2, hfind]
    · exact jsIncludes_sandwich
        "Commit has a 'Signed-off-by' line matching pattern ('" p
        "'). Ruleset defined in 'rulesToEnforce' bypassed."

/-- C2 witness: both variants applied at the specification's examples — a
dependabot raw-substring match and a dependabot `Signed-off-by:` trailer
match, each with a non-matching pattern first in the list and a rule
configured that is never invoked. -/
theorem c2_witness :
    IgnoreForAuthorsV1.ignoreForAuthors (envWith failFn)
        { raw := JSVal.str "fix(deps): update by dependabot[bot]" }
        RuleConfigCondition.always
        (some ⟨JsArrayField.arr (["renovate-bot", "dependabot[bot]"].map JSVal.str),
          JsArrayField.arr [specX]⟩)
      = (Except.ok (true, IgnoreForAuthorsV1.pfx ++ "Commit by ignored author pattern ('" ++ "dependabot[bot]" ++ "'). Ruleset defined in 'rulesToEnforce' bypassed."), [])
    ∧ IgnoreForAuthorsV2.ignoreForAuthors (envWith failFn)
        { raw := JSVal.str "fix: x\n\nSigned-off-by: dependabot[bot] <d@x.com>" }
        RuleConfigCondition.always
        (some ⟨JsArrayField.arr (["renovate-bot", "dependabot[bot]"].map JSVal.str),
          JsArrayField.arr [specX]⟩)
      = (Except.ok (true, "Commit has a 'Signed-off-by' line matching pattern ('" ++ "dependabot[bot]" ++ "'). Ruleset defined in 'rulesToEnforce' bypassed."), []) := by
  constructor
  · exact (c2_bypass_short_circuits.1 (envWith failFn) _
      "fix(deps): update by dependabot[bot]" ["renovate-bot"] [] "dependabot[bot]" _
      rfl (by decide) (by decide)).1
  · exact (c2_bypass_short_circuits.2 (envWith failFn) _
      "fix: x\n\nSigned-off-by: dependabot[bot] <d@x.com>" ["renovate-bot"] []
      "dependabot[bot]" _ rfl (by decide) (by decide)).1

/-- C10: a bypass-pattern list (of strings) that contains the empty string
matches every commit in the substring variant, since every string contains
the empty substring, so `rulesToEnforce` is bypassed unconditionally; in
the trailer variant it bypasses every commit from which at least one
`Signed-off-by:` trailer was extracted. -/
theorem c10_empty_pattern_bypasses {V : Type} :
    (∀ (env : Env V) (c : Commit) (rm : String) (strs : List String)
       (rules : JsArrayField (ExternalRuleToEnforce V)),
      c.raw = JSVal.str rm → "" ∈ strs →
      ∃ p, jsIncludes rm p = true ∧
        IgnoreForAuthorsV1.ignoreForAuthors env c RuleConfigCondition.always
            (some ⟨JsArrayField.arr (strs.map JSVal.str), rules⟩)
          = (Except.ok (true, IgnoreForAuthorsV1.pfx ++ "Commit by ignored author pattern ('" ++ p ++ "'). Ruleset defined in 'rulesToEnforce' bypassed."), []))
    ∧ (∀ (env : Env V) (c : Commit) (rm : String) (strs : List String)
       (rules : JsArrayField (ExternalRuleToEnforce V)),
      c.raw = JSVal.str rm → "" ∈ strs → extractSignOffs rm ≠ [] →
      ∃ p, IgnoreForAuthorsV2.ignoreForAuthors env c RuleConfigCondition.always
            (some ⟨JsArrayField.arr (strs.map JSVal.str), rules⟩)
          = (Except.ok (true, "Commit has a 'Signed-off-by' line matching pattern ('" ++ p ++ "'). Ruleset defined in 'rulesToEnforce' bypassed."), [])) := by
  constructor
  · intro env c rm strs rules hraw hmem
    have hsome : (strs.find? (fun q => jsIncludes rm q)).isSome :=
      List.find?_isSome.mpr ⟨"", hmem, jsIncludes_empty rm⟩
    obtain ⟨p, hfind⟩ := Option.isSome_iff_exists.mp hsome
    refine ⟨p, List.find?_some hfind, v1_run_bypass env c rm _ rules _ hraw ?_⟩
    simp [IgnoreForAuthorsV1.bypassCheck, allStrings?_map_str, hfind]
  · intro env c rm strs rules hraw hmem hne
    obtain ⟨w, hw⟩ := List.exists_mem_of_ne_nil _ hne
    have hsome : (strs.find?
        (fun q => (extractSignOffs rm).any (fun v => jsIncludes v q))).isSome :=
      List.find?_isSome.mpr ⟨"", hmem,
        List.any_eq_true.mpr ⟨w, hw, jsIncludes_empty w⟩⟩
    obtain ⟨p, hfind⟩ := Option.isSome_iff_exists.mp hsome
    have hlen1 : 0 < strs.length := List.length_pos.mpr (List.ne_nil_of_mem hmem)
    have hlen2 : 0 < (extractSignOffs rm).length := List.length_pos.mpr hne
    refine ⟨p, v2_run_bypass env c rm _ rules _ hraw ?_⟩
    simp [IgnoreForAuthorsV2.bypassCheck, allStrings?_map_str, hlen1, hlen2, hfind]

/-- C10 witness: a pattern list `["x", ""]` bypasses an arbitrary commit in
the substring variant, and bypasses a commit with a `Signed-off-by:`
trailer in the trailer variant. -/
theorem c10_witness :
    (∃ p, jsIncludes "docs: anything at all" p = true ∧
      IgnoreForAuthorsV1.ignoreForAuthors (envWith failFn)
          { raw := JSVal.str "docs: anything at all" } RuleConfigCondition.always
          (some ⟨JsArrayField.arr (["x", ""].map JSVal.str), JsArrayField.arr [specX]⟩)
        = (Except.ok (true, IgnoreForAuthorsV1.pfx ++ "Commit by ignored author pattern ('" ++ p ++ "'). Ruleset defined in 'rulesToEnforce' bypassed."), []))
    ∧ (∃ p, IgnoreForAuthorsV2.ignoreForAuthors (envWith failFn)
          { raw := JSVal.str "docs: y\n\nSigned-off-by: Zed <z@x.com>" }
          RuleConfigCondition.always
          (some ⟨JsArrayField.arr (["x", ""].map JSVal.str), JsArrayField.arr [specX]⟩)
        = (Except.ok (true, "Commit has a 'Signed-off-by' line matching pattern ('" ++ p ++ "'). Ruleset defined in 'rulesToEnforce' bypassed."), [])) := by
  constructor
  · exact c10_empty_pattern_bypasses.1 (envWith failFn) _ "docs: anything at all"
      ["x", ""] _ rfl (by decide)
  · exact c10_empty_pattern_bypasses.2 (envWith failFn) _
      "docs: y\n\nSigned-off-by: Zed <z@x.com>" ["x", ""] _ rfl (by decide) (by decide)

/-- C6: for a spec with string names reached first, a throwing import makes
the evaluation fail at once with a message naming the package and carrying
the underlying error's text; a successful load whose three-tier catalogue
lookup yields no catalogue, no entry under the rule name, or a
non-invocable entry makes it fail at once with a message naming both the
rule and the package. In both cases the trace is the single load of that
package: the remaining specs are never validated, loaded or invoked. Both
variants behave this way, with the first variant's message prefix. -/
theorem c6_resolution_failure_fails {V : Type} :
    (∀ (env : Env V) (c : Commit) (rm : String) (pats : JsArrayField JSVal)
       (pns rns : String) (v : V) (rest : List (ExternalRuleToEnforce V)) (e : String),
      c.raw = JSVal.str rm →
      IgnoreForAuthorsV1.bypassCheck rm pats = none →
      env pns = ImportResult.throws e →
      IgnoreForAuthorsV1.ignoreForAuthors env c RuleConfigCondition.always
          (some ⟨pats, JsArrayField.arr (ExternalRuleToEnforce.obj (JSVal.str pns) (JSVal.str rns) v :: rest)⟩)
        = (Except.ok (false, IgnoreForAuthorsV1.pfx ++ "Error loading plugin package '" ++ pns ++ "': " ++ e),
           [Event.load pns]))
    ∧ (∀ (env : Env V) (c : Commit) (rm : String) (pats : JsArrayField JSVal)
       (pns rns : String) (v : V) (rest : List (ExternalRuleToEnforce V))
       (m : LoadedCommitlintPluginModule V),
      c.raw = JSVal.str rm →
      IgnoreForAuthorsV1.bypassCheck rm pats = none →
      env pns = ImportResult.ok m →
      resolveRuleFunction m rns = none →
      IgnoreForAuthorsV1.ignoreForAuthors env c RuleConfigCondition.always
          (some ⟨pats, JsArrayField.arr (ExternalRuleToEnforce.obj (JSVal.str pns) (JSVal.str rns) v :: rest)⟩)
        = (Except.ok (false, IgnoreForAuthorsV1.pfx ++ "Rule '" ++ rns ++ "' not found or not a function in package '" ++ pns ++ "'."),
           [Event.load pns]))
    ∧ (∀ (env : Env V) (c : Commit) (rm : String) (pats : JsArrayField JSVal)
       (pns rns : String) (v : V) (rest : List (ExternalRuleToEnforce V)) (e : String),
      c.raw = JSVal.str rm →
      IgnoreForAuthorsV2.bypassCheck rm pats = none →
      env pns = ImportResult.throws e →
      IgnoreForAuthorsV2.ignoreForAuthors env c RuleConfigCondition.always
          (some ⟨pats, JsArrayField.arr (ExternalRuleToEnforce.obj (JSVal.str pns) (JSVal.str rns) v :: rest)⟩)
        = (Except.ok (false, "Error loading plugin package '" ++ pns ++ "': " ++ e),
           [Event.load pns]))
    ∧ (∀ (env : Env V) (c : Commit) (rm : String) (pats : JsArrayField JSVal)
       (pns rns : String) (v : V) (rest : List (ExternalRuleToEnforce V))
       (m : LoadedCommitlintPluginModule V),
      c.raw = JSVal.str rm →
      IgnoreForAuthorsV2.bypassCheck rm pats = none →
      env pns = ImportResult.ok m →
      resolveRuleFunction m rns = none →
      IgnoreForAuthorsV2.ignoreForAuthors env c RuleConfigCondition.always
          (some ⟨pats, JsArrayField.arr (ExternalRuleToEnforce.obj (JSVal.str pns) (JSVal.str rns) v :: rest)⟩)
        = (Except.ok (false, "Rule '" ++ rns ++ "' not found or not a function in package '" ++ pns ++ "'."),
           [Event.load pns])) := by
  refine ⟨?_, ?_, ?_, ?_⟩
  · intro env c rm pats pns rns v rest e hraw hbp henv
    rw [v1_run_enforce env c rm pats _ rest hraw hbp]
    rw [enforceRules_cons_throws IgnoreForAuthorsV1.pfx IgnoreForAuthorsV1.viaPfx c rns v rest henv]
  · intro env c rm pats pns rns v rest m hraw hbp henv hres
    rw [v1_run_enforce env c rm pats _ rest hraw hbp]
    rw [enforceRules_cons_notFound IgnoreForAuthorsV1.pfx IgnoreForAuthorsV1.viaPfx c v rest henv hres]
  · intro env c rm pats pns rns v rest e hraw hbp henv
    rw [v2_run_enforce env c rm pats _ rest hraw hbp]
    rw [enforceRules_cons_throws "" "[via " c rns v rest henv]
    simp [String.empty_append]
  · intro env c rm pats pns rns v rest m hraw hbp henv hres
    rw [v2_run_enforce env c rm pats _ rest hraw hbp]
    rw [enforceRules_cons_notFound "" "[via " c v rest henv hres]
    simp [String.empty_append]

/-- C6 witness: a package that fails to import, and a resolvable module
whose catalogue lacks the requested rule, each with a second spec behind
it whose package is never loaded. -/
theorem c6_witness :
    IgnoreForAuthorsV1.ignoreForAuthors envThrows { raw := JSVal.str "feat: x" }
        RuleConfigCondition.always
        (some ⟨JsArrayField.falsy, JsArrayField.arr [specX, specX]⟩)
      = (Except.ok (false, IgnoreForAuthorsV1.pfx ++ "Error loading plugin package '" ++ "pkgA" ++ "': " ++ "module not found"),
         [Event.load "pkgA"])
    ∧ IgnoreForAuthorsV2.ignoreForAuthors (envWith failFn) { raw := JSVal.str "feat: x" }
        RuleConfigCondition.always
        (some ⟨JsArrayField.falsy,
          JsArrayField.arr [ExternalRuleToEnforce.obj (JSVal.str "pkgA") (JSVal.str "absent-rule") 0, specX]⟩)
      = (Except.ok (false, "Rule '" ++ "absent-rule" ++ "' not found or not a function in package '" ++ "pkgA" ++ "'."),
         [Event.load "pkgA"]) := by
  constructor
  · exact c6_resolution_failure_fails.1 envThrows _ "feat: x" JsArrayField.falsy
      "pkgA" "ruleX" 0 [specX] "module not found" rfl rfl rfl
  · exact c6_resolution_failure_fails.2.2.2 (envWith failFn) _ "feat: x" JsArrayField.falsy
      "pkgA" "absent-rule" 0 [specX] _ rfl rfl rfl rfl

/-- As `v1_run_enforce`, for any non-empty enforcement list. -/
theorem v1_run_enforce_ne {V : Type} (env : Env V) (c : Commit) (rm : String)
    (pats : JsArrayField JSVal) (rcs : List (ExternalRuleToEnforce V))
    (hraw : c.raw = JSVal.str rm)
    (hbp : IgnoreForAuthorsV1.bypassCheck rm pats = none) (hne : rcs ≠ []) :
    IgnoreForAuthorsV1.ignoreForAuthors env c RuleConfigCondition.always
        (some ⟨pats, JsArrayField.arr rcs⟩)
      = enforceRules IgnoreForAuthorsV1.pfx IgnoreForAuthorsV1.viaPfx env c rcs := by
  cases rcs with
  | nil => exact absurd rfl hne
  | cons rc rest => exact v1_run_enforce env c rm pats rc rest hraw hbp

/-- As `v2_run_enforce`, for any non-empty enforcement list. -/
theorem v2_run_enforce_ne {V : Type} (env : Env V) (c : Commit) (rm : String)
    (pats : JsArrayField JSVal) (rcs : List (ExternalRuleToEnforce V))
    (hraw : c.raw = JSVal.str rm)
    (hbp : IgnoreForAuthorsV2.bypassCheck rm pats = none) (hne : rcs ≠ []) :
    IgnoreForAuthorsV2.ignoreForAuthors env c RuleConfigCondition.always
        (some ⟨pats, JsArrayField.arr rcs⟩)
      = enforceRules "" "[via " env c rcs := by
  cases rcs with
  | nil => exact absurd rfl hne
  | cons rc rest => exact v2_run_enforce env c rm pats rc rest hraw hbp

/-- C4 counterexample: in the first (substring) variant a failing delegated
rule produces the message
`[@mridang/commitlint-plugin-conditionals via pkgA/ruleX] boom`, which is
not the claimed `[via pkgA/ruleX] boom` (it does not even start with
`[via`), so the claimed message format does not hold of both variants. -/
theorem c4_counterexample :
    (IgnoreForAuthorsV1.ignoreForAuthors (envWith failFn) { raw := JSVal.str "feat: x" }
        RuleConfigCondition.always (some ⟨JsArrayField.falsy, JsArrayField.arr [specX]⟩)).fst
      = Except.ok (false, "[@mridang/commitlint-plugin-conditionals via pkgA/ruleX] boom")
    ∧ "[@mridang/commitlint-plugin-conditionals via pkgA/ruleX] boom" ≠ "[via pkgA/ruleX] boom" :=
  ⟨rfl, by decide⟩

/-- C4 (amended): when every entry before the first failing spec resolves
and passes, evaluation stops at that spec with a failing outcome whose
message appends the delegated rule's message verbatim to a provenance
marker naming the spec's package and rule — exactly
`[via <packageName>/<ruleName>] <message>` in the trailer variant, and the
same with the plugin tag, `[@mridang/commitlint-plugin-conditionals via
<packageName>/<ruleName>] <message>`, in the substring variant. The trace
records only the loads and invocations of the preceding passing specs and
of the failing spec itself: the callables of all subsequent specs are
never resolved or invoked. -/
theorem c4_first_failure_short_circuit {V : Type} :
    (∀ (env : Env V) (c : Commit) (rm : String) (pats : JsArrayField JSVal)
       (pre : List (String × String × V)) (pnf rnf : String) (vf : V)
       (post : List (ExternalRuleToEnforce V))
       (mf : LoadedCommitlintPluginModule V) (ff : RuleFn V) (msgf : String),
      c.raw = JSVal.str rm →
      IgnoreForAuthorsV1.bypassCheck rm pats = none →
      (∀ x ∈ pre, ∃ m f msg, env x.1 = ImportResult.ok m ∧
          resolveRuleFunction m x.2.1 = some f ∧
          f c RuleConfigCondition.always x.2.2 = InvokeResult.tuple true msg) →
      env pnf = ImportResult.ok mf →
      resolveRuleFunction mf rnf = some ff →
      ff c RuleConfigCondition.always vf = InvokeResult.tuple false msgf →
      IgnoreForAuthorsV1.ignoreForAuthors env c RuleConfigCondition.always
          (some ⟨pats, JsArrayField.arr
            (pre.map (fun x => ExternalRuleToEnforce.obj (JSVal.str x.1) (JSVal.str x.2.1) x.2.2)
              ++ ExternalRuleToEnforce.obj (JSVal.str pnf) (JSVal.str rnf) vf :: post)⟩)
        = (Except.ok (false, IgnoreForAuthorsV1.viaPfx ++ pnf ++ "/" ++ rnf ++ "] " ++ msgf),
           pre.flatMap (fun x =>
               [Event.load x.1, Event.invoke x.1 x.2.1 c RuleConfigCondition.always x.2.2])
             ++ [Event.load pnf, Event.invoke pnf rnf c RuleConfigCondition.always vf]))
    ∧ (∀ (env : Env V) (c : Commit) (rm : String) (pats : JsArrayField JSVal)
       (pre : List (String × String × V)) (pnf rnf : String) (vf : V)
       (post : List (ExternalRuleToEnforce V))
       (mf : LoadedCommitlintPluginModule V) (ff : RuleFn V) (msgf : String),
      c.raw = JSVal.str rm →
      IgnoreForAuthorsV2.bypassCheck rm pats = none →
      (∀ x ∈ pre, ∃ m f msg, env x.1 = ImportResult.ok m ∧
          resolveRuleFunction m x.2.1 = some f ∧
          f c RuleConfigCondition.always x.2.2 = InvokeResult.tuple true msg) →
      env pnf = ImportResult.ok mf →
      resolveRuleFunction mf rnf = some ff →
      ff c RuleConfigCondition.always vf = InvokeResult.tuple false msgf →
      IgnoreForAuthorsV2.ignoreForAuthors env c RuleConfigCondition.always
          (some ⟨pats, JsArrayField.arr
            (pre.map (fun x => ExternalRuleToEnforce.obj (JSVal.str x.1) (JSVal.str x.2.1) x.2.2)
              ++ ExternalRuleToEnforce.obj (JSVal.str pnf) (JSVal.str rnf) vf :: post)⟩)
        = (Except.ok (false, "[via " ++ pnf ++ "/" ++ rnf ++ "] " ++ msgf),
           pre.flatMap (fun x =>
               [Event.load x.1, Event.invoke x.1 x.2.1 c RuleConfigCondition.always x.2.2])
             ++ [Event.load pnf, Event.invoke pnf rnf c RuleConfigCondition.always vf])) := by
  constructor
  · intro env c rm pats pre pnf rnf vf post mf ff msgf hraw hbp hpre henv hres hinv
    rw [v1_run_enforce_ne env c rm pats _ hraw hbp (by simp),
      enforceRules_prepend_passing _ _ env c pre _ hpre,
      enforceRules_cons_fail _ _ post henv hres hinv]
  · intro env c rm pats pre pnf rnf vf post mf ff msgf hraw hbp hpre henv hres hinv
    rw [v2_run_enforce_ne env c rm pats _ hraw hbp (by simp),
      enforceRules_prepend_passing _ _ env c pre _ hpre,
      enforceRules_cons_fail _ _ post henv hres hinv]

/-- C4 witness: the amended theorem at a concrete two-spec chain — a
passing spec, then a failing one — followed by a third spec whose package
load and invocation are absent from the trace. -/
theorem c4_witness :
    IgnoreForAuthorsV2.ignoreForAuthors envGoodBad
        { raw := JSVal.str "feat: x" } RuleConfigCondition.always
        (some ⟨JsArrayField.falsy, JsArrayField.arr
          [ExternalRuleToEnforce.obj (JSVal.str "pkgGood") (JSVal.str "ruleX") 0,
           ExternalRuleToEnforce.obj (JSVal.str "pkgBad") (JSVal.str "ruleX") 1,
           ExternalRuleToEnforce.obj (JSVal.str "pkgNever") (JSVal.str "ruleX") 2]⟩)
      = (Except.ok (false, "[via " ++ "pkgBad" ++ "/" ++ "ruleX" ++ "] " ++ "boom"),
         [Event.load "pkgGood",
          Event.invoke "pkgGood" "ruleX" { raw := JSVal.str "feat: x" } RuleConfigCondition.always 0,
          Event.load "pkgBad",
          Event.invoke "pkgBad" "ruleX" { raw := JSVal.str "feat: x" } RuleConfigCondition.always 1]) := by
  have h := c4_first_failure_short_circuit.2 envGoodBad
    { raw := JSVal.str "feat: x" } "feat: x" JsArrayField.falsy
    [("pkgGood", "ruleX", 0)] "pkgBad" "ruleX" 1
    [ExternalRuleToEnforce.obj (JSVal.str "pkgNever") (JSVal.str "ruleX") 2]
    (moduleWith failFn) failFn "boom" rfl rfl
    (by
      intro x hx
      simp at hx
      subst hx
      exact ⟨moduleWith passFn, passFn, "ok", rfl, rfl, rfl⟩)
    rfl rfl rfl
  simpa using h

/-- The effect trace of the first variant is empty or is the trace of its
enforcement loop. -/
theorem v1_trace_shape {V : Type} (env : Env V) (c : Commit) (w : RuleConfigCondition)
    (opts : Option (IgnoreForAuthorsV1.IgnoreForAuthorsRuleOptions V)) :
    (IgnoreForAuthorsV1.ignoreForAuthors env c w opts).snd = []
    ∨ ∃ rcs, (IgnoreForAuthorsV1.ignoreForAuthors env c w opts).snd
        = (enforceRules IgnoreForAuthorsV1.pfx IgnoreForAuthorsV1.viaPfx env c rcs).snd := by
  cases w with
  | never => exact Or.inl rfl
  | always =>
    rcases opts with _ | ⟨pats, rules⟩
    · cases hraw : c.raw with
      | nonString => exact Or.inl (by simp [IgnoreForAuthorsV1.ignoreForAuthors, hraw])
      | str rm =>
        exact Or.inl (by
          simp [IgnoreForAuthorsV1.ignoreForAuthors, hraw, IgnoreForAuthorsV1.bypassCheck])
    · cases hraw : c.raw with
      | nonString => exact Or.inl (by simp [IgnoreForAuthorsV1.ignoreForAuthors, hraw])
      | str rm =>
        cases hbp : IgnoreForAuthorsV1.bypassCheck rm pats with
        | some r => exact Or.inl (by rw [v1_run_bypass env c rm pats rules r hraw hbp])
        | none =>
          cases rules with
          | falsy =>
            exact Or.inl (by rw [v1_run_no_rules env c rm pats _ hraw hbp (Or.inl rfl)])
          | notArray =>
            exact Or.inl (by rw [v1_run_no_rules env c rm pats _ hraw hbp (Or.inr (Or.inl rfl))])
          | arr rcs =>
            cases rcs with
            | nil =>
              exact Or.inl (by rw [v1_run_no_rules env c rm pats _ hraw hbp (Or.inr (Or.inr rfl))])
            | cons rc rest =>
              exact Or.inr ⟨rc :: rest, by rw [v1_run_enforce env c rm pats rc rest hraw hbp]⟩

/-- The effect trace of the second variant is empty or is the trace of its
enforcement loop. -/
theorem v2_trace_shape {V : Type} (env : Env V) (c : Commit) (w : RuleConfigCondition)
    (opts : Option (IgnoreForAuthorsV2.IgnoreForAuthorsRuleOptions V)) :
    (IgnoreForAuthorsV2.ignoreForAuthors env c w opts).snd = []
    ∨ ∃ rcs, (IgnoreForAuthorsV2.ignoreForAuthors env c w opts).snd
        = (enforceRules "" "[via " env c rcs).snd := by
  cases w with
  | never => exact Or.inl rfl
  | always =>
    rcases opts with _ | ⟨pats, rules⟩
    · cases hraw : c.raw with
      | nonString => exact Or.inl (by simp [IgnoreForAuthorsV2.ignoreForAuthors, hraw])
      | str rm =>
        exact Or.inl (by
          simp [IgnoreForAuthorsV2.ignoreForAuthors, hraw, IgnoreForAuthorsV2.bypassCheck])
    · cases hraw : c.raw with
      | nonString => exact Or.inl (by simp [IgnoreForAuthorsV2.ignoreForAuthors, hraw])
      | str rm =>
        cases hbp : IgnoreForAuthorsV2.bypassCheck rm pats with
        | some r => exact Or.inl (by rw [v2_run_bypass env c rm pats rules r hraw hbp])
        | none =>
          cases rules with
          | falsy =>
            exact Or.inl (by rw [v2_run_no_rules env c rm pats _ hraw hbp (Or.inl rfl)])
          | notArray =>
            exact Or.inl (by rw [v2_run_no_rules env c rm pats _ hraw hbp (Or.inr (Or.inl rfl))])
          | arr rcs =>
            cases rcs with
            | nil =>
              exact Or.inl (by rw [v2_run_no_rules env c rm pats _ hraw hbp (Or.inr (Or.inr rfl))])
            | cons rc rest =>
              exact Or.inr ⟨rc :: rest, by rw [v2_run_enforce env c rm pats rc rest hraw hbp]⟩

/-- C9: whatever condition either variant itself was called with, every
delegated-rule invocation it performs passes the hard-coded condition
`'always'` and the engine's own commit object; and at the loop level the
package name, rule name and option value of every invocation are those of
an entry of the enforced list, so each resolved rule is invoked with
`(commit, 'always', spec.value)`. -/
theorem c9_condition_hardcoded_always {V : Type} :
    (∀ (env : Env V) (c : Commit) (w : RuleConfigCondition)
       (opts : Option (IgnoreForAuthorsV1.IgnoreForAuthorsRuleOptions V))
       (e : Event V) (pn rn : String) (cm : Commit) (cond : RuleConfigCondition) (v : V),
      e ∈ (IgnoreForAuthorsV1.ignoreForAuthors env c w opts).snd →
      e = Event.invoke pn rn cm cond v →
      cond = RuleConfigCondition.always ∧ cm = c)
    ∧ (∀ (env : Env V) (c : Commit) (w : RuleConfigCondition)
       (opts : Option (IgnoreForAuthorsV2.IgnoreForAuthorsRuleOptions V))
       (e : Event V) (pn rn : String) (cm : Commit) (cond : RuleConfigCondition) (v : V),
      e ∈ (IgnoreForAuthorsV2.ignoreForAuthors env c w opts).snd →
      e = Event.invoke pn rn cm cond v →
      cond = RuleConfigCondition.always ∧ cm = c)
    ∧ (∀ (pfx viaPfx : String) (env : Env V) (parsed : Commit)
       (rcs : List (ExternalRuleToEnforce V))
       (e : Event V) (pn rn : String) (cm : Commit) (cond : RuleConfigCondition) (v : V),
      e ∈ (enforceRules pfx viaPfx env parsed rcs).snd →
      e = Event.invoke pn rn cm cond v →
      cond = RuleConfigCondition.always ∧ cm = parsed ∧
        ExternalRuleToEnforce.obj (JSVal.str pn) (JSVal.str rn) v ∈ rcs) := by
  refine ⟨?_, ?_, ?_⟩
  · intro env c w opts e pn rn cm cond v hmem heq
    rcases v1_trace_shape env c w opts with hnil | ⟨rcs, htr⟩
    · rw [hnil] at hmem
      cases hmem
    · rw [htr] at hmem
      have h := enforceRules_invoke_events IgnoreForAuthorsV1.pfx IgnoreForAuthorsV1.viaPfx
        env c rcs e hmem pn rn cm cond v heq
      exact ⟨h.1, h.2.1⟩
  · intro env c w opts e pn rn cm cond v hmem heq
    rcases v2_trace_shape env c w opts with hnil | ⟨rcs, htr⟩
    · rw [hnil] at hmem
      cases hmem
    · rw [htr] at hmem
      have h := enforceRules_invoke_events "" "[via " env c rcs e hmem pn rn cm cond v heq
      exact ⟨h.1, h.2.1⟩
  · intro pfx viaPfx env parsed rcs e pn rn cm cond v hmem heq
    exact enforceRules_invoke_events pfx viaPfx env parsed rcs e hmem pn rn cm cond v heq

/-- C9 witness: in a concrete run of the loop that invokes `pkgA/ruleX`,
the invocation's condition is `'always'`, its commit is the engine's, and
its spec is the configured entry. -/
theorem c9_witness :
    RuleConfigCondition.always = RuleConfigCondition.always
    ∧ ({ raw := JSVal.str "feat: x" } : Commit) = { raw := JSVal.str "feat: x" }
    ∧ specX ∈ [specX] := by
  exact c9_condition_hardcoded_always.2.2 "" "[via " (envWith passFn)
    { raw := JSVal.str "feat: x" } [specX]
    (Event.invoke "pkgA" "ruleX" { raw := JSVal.str "feat: x" } RuleConfigCondition.always 0)
    "pkgA" "ruleX" { raw := JSVal.str "feat: x" } RuleConfigCondition.always 0
    (by decide) rfl

/-- C3 counterexample: the greedy `\s*` of the trailer regex crosses the
line break, so for the raw text `"Signed-off-by:\nhello"` the engine
extracts `"hello"` from the line after the marker and a trailer-mode
pattern `"hello"` produces a bypass — yet the only line of the raw text of
the form `Signed-off-by: <value>` has the empty value, of which `"hello"`
is not a substring, so the claimed line-based characterisation fails. -/
theorem c3_counterexample :
    IgnoreForAuthorsV2.bypassCheck "Signed-off-by:\nhello" (JsArrayField.arr [JSVal.str "hello"])
      = some (Except.ok (true, "Commit has a 'Signed-off-by' line matching pattern ('hello'). Ruleset defined in 'rulesToEnforce' bypassed."))
    ∧ extractSignOffs "Signed-off-by:\nhello" = ["hello"]
    ∧ specLineSignOffValues "Signed-off-by:\nhello" = [""]
    ∧ (∀ w ∈ specLineSignOffValues "Signed-off-by:\nhello", jsIncludes w "hello" = false)
    ∧ IgnoreForAuthorsV2.ignoreForAuthors (envWith failFn)
        { raw := JSVal.str "Signed-off-by:\nhello" } RuleConfigCondition.always
        (some ⟨JsArrayField.arr [JSVal.str "hello"], JsArrayField.arr [specX]⟩)
      = (Except.ok (true, "Commit has a 'Signed-off-by' line matching pattern ('hello'). Ruleset defined in 'rulesToEnforce' bypassed."), []) :=
  ⟨rfl, rfl, rfl, by decide, rfl⟩

/-- The trailer-mode bypass block on an all-string pattern list, written
as nested guards: patterns non-empty, extraction non-empty, then the
first pattern that is a substring of some extracted trailer value. -/
theorem v2_bypassCheck_eq (rm : String) (strs : List String) :
    IgnoreForAuthorsV2.bypassCheck rm (JsArrayField.arr (strs.map JSVal.str))
      = if 0 < strs.length then
          if 0 < (extractSignOffs rm).length then
            match strs.find? (fun p => (extractSignOffs rm).any (fun w => jsIncludes w p)) with
            | some q =>
              some (Except.ok (true, "Commit has a 'Signed-off-by' line matching pattern ('" ++ q ++ "'). Ruleset defined in 'rulesToEnforce' bypassed."))
            | none => none
          else none
        else none := by
  have hall : allStrings? (strs.map JSVal.str) = some strs := allStrings?_map_str _
  cases strs with
  | nil => simp [IgnoreForAuthorsV2.bypassCheck, allStrings?]
  | cons s t =>
    rw [List.map_cons] at hall
    simp [IgnoreForAuthorsV2.bypassCheck, hall]

/-- C3 (amended): in trailer mode a bypass pattern produces a bypass if and
only if it is a substring of some trimmed value captured by the regex
`^Signed-off-by:\s*(.*)$` (case-insensitive, multiline) over the raw text —
where the greedy `\s*` may also consume line breaks, so a `Signed-off-by:`
line with nothing but whitespace after its colon captures the following
text line rather than its own (empty) remainder; for markers whose value
sits on the same line this coincides with the claimed line-based
extraction. A matching bypass returns the block's success outcome through
the engine unchanged with an empty trace, and zero extracted trailers
means no trailer-mode bypass is possible. -/
theorem c3_trailer_match_iff {V : Type} :
    (∀ (rm : String) (strs : List String),
      (∃ msg, IgnoreForAuthorsV2.bypassCheck rm (JsArrayField.arr (strs.map JSVal.str))
          = some (Except.ok (true, msg)))
      ↔ (∃ p ∈ strs, ∃ w ∈ extractSignOffs rm, jsIncludes w p = true))
    ∧ (∀ (rm : String) (strs : List String),
      extractSignOffs rm = [] →
      IgnoreForAuthorsV2.bypassCheck rm (JsArrayField.arr (strs.map JSVal.str)) = none)
    ∧ (∀ (env : Env V) (c : Commit) (rm : String) (pats : JsArrayField JSVal)
       (rules : JsArrayField (ExternalRuleToEnforce V)) (r : Except JsError RuleOutcome),
      c.raw = JSVal.str rm →
      IgnoreForAuthorsV2.bypassCheck rm pats = some r →
      IgnoreForAuthorsV2.ignoreForAuthors env c RuleConfigCondition.always (some ⟨pats, rules⟩)
        = (r, [])) := by
  refine ⟨?_, ?_, ?_⟩
  · intro rm strs
    constructor
    · rintro ⟨msg, hbc⟩
      rw [v2_bypassCheck_eq] at hbc
      by_cases h1 : 0 < strs.length
      · rw [if_pos h1] at hbc
        by_cases h2 : 0 < (extractSignOffs rm).length
        · rw [if_pos h2] at hbc
          rcases hfind : strs.find?
              (fun p => (extractSignOffs rm).any (fun w => jsIncludes w p)) with _ | p
          · rw [hfind] at hbc
            simp at hbc
          · have hp := List.find?_some hfind
            have hmem := List.mem_of_find?_eq_some hfind
            obtain ⟨w0, hw0, hw0p⟩ := List.any_eq_true.mp hp
            exact ⟨p, hmem, w0, hw0, hw0p⟩
        · rw [if_neg h2] at hbc
          simp at hbc
      · rw [if_neg h1] at hbc
        simp at hbc
    · rintro ⟨p, hmem, w, hw, hwp⟩
      have hlen1 : 0 < strs.length := List.length_pos.mpr (List.ne_nil_of_mem hmem)
      have hlen2 : 0 < (extractSignOffs rm).length :=
        List.length_pos.mpr (List.ne_nil_of_mem hw)
      have hsome : (strs.find?
          (fun q => (extractSignOffs rm).any (fun w => jsIncludes w q))).isSome :=
        List.find?_isSome.mpr ⟨p, hmem, List.any_eq_true.mpr ⟨w, hw, hwp⟩⟩
      obtain ⟨q, hfind⟩ := Option.isSome_iff_exists.mp hsome
      refine ⟨"Commit has a 'Signed-off-by' line matching pattern ('" ++ q ++ "'). Ruleset defined in 'rulesToEnforce' bypassed.", ?_⟩
      rw [v2_bypassCheck_eq, if_pos hlen1, if_pos hlen2, hfind]
  · intro rm strs hE
    rw [v2_bypassCheck_eq]
    simp [hE]
  · intro env c rm pats rules r hraw hbc
    exact v2_run_bypass env c rm pats rules r hraw hbc

/-- C3 witness: the amended characterisation at the specification's own
examples — the pattern `dependabot[bot]` inside a `Signed-off-by:` line
produces a bypass, and the same pattern inside an ordinary body line (with
a different signer) produces none. -/
theorem c3_witness :
    (∃ msg, IgnoreForAuthorsV2.bypassCheck "fix: x\n\nSigned-off-by: dependabot[bot] <d@x.com>"
        (JsArrayField.arr (["dependabot[bot]"].map JSVal.str))
      = some (Except.ok (true, msg)))
    ∧ ¬ (∃ msg, IgnoreForAuthorsV2.bypassCheck "pattern dependabot[bot] in body\n\nSigned-off-by: Alice <a@x.com>"
        (JsArrayField.arr (["dependabot[bot]"].map JSVal.str))
      = some (Except.ok (true, msg))) := by
  constructor
  · exact (c3_trailer_match_iff (V := Nat)).1 "fix: x\n\nSigned-off-by: dependabot[bot] <d@x.com>"
      ["dependabot[bot]"] |>.mpr (by decide)
  · intro h
    have := (c3_trailer_match_iff (V := Nat)).1 "pattern dependabot[bot] in body\n\nSigned-off-by: Alice <a@x.com>"
      ["dependabot[bot]"] |>.mp h
    exact absurd this (by decide)
